import Mathlib

/-!
# Verification of the study-guide application's core string / caching / extraction logic

This file gives a shallow embedding, over `List Char`, of the pure core of
`src/app.py`: the cache-key normalization, the AI-guidance cache and the
guidance-generation control flow, notebook/PDF text extraction, default-topic
flattening, guide topic grouping with its noise filter, the math-delimiter
normalization, and the per-call file limit of the extraction route.

Python strings are modelled as lists of characters (`Str`), `None`-able values
as `Option`, raised-and-caught exceptions of external calls as `Option`/`Except`
inputs, and the relational cache tables as association lists (an absent table is
`Option.none`, matching the `no such table` handler that treats it as a miss).
-/

set_option autoImplicit false

namespace StudyGuide

/-- Python strings, modelled as lists of unicode characters. -/
abbrev Str := List Char

/-- Convert a Lean string literal to the model type. -/
def str (s : String) : Str := s.toList

/-- The characters Python's `str.split()` / `str.strip()` treat as whitespace
(`str.isspace`): ASCII whitespace, the C1 separators, and the Unicode space
code points. -/
def pyIsSpace (c : Char) : Bool :=
  let n := c.toNat
  (decide (9 ≤ n) && decide (n ≤ 13)) || (decide (28 ≤ n) && decide (n ≤ 32)) ||
  n == 133 || n == 160 || n == 5760 ||
  (decide (8192 ≤ n) && decide (n ≤ 8202)) ||
  n == 8232 || n == 8233 || n == 8239 || n == 8287 || n == 12288

/-- Python `str.lower()` on the basic latin range (the only case mapping the
repository's inputs exercise): `A`–`Z` map to `a`–`z`, all else is fixed. -/
def pyLowerChar (c : Char) : Char :=
  match c with
  | 'A' => 'a' | 'B' => 'b' | 'C' => 'c' | 'D' => 'd' | 'E' => 'e' | 'F' => 'f'
  | 'G' => 'g' | 'H' => 'h' | 'I' => 'i' | 'J' => 'j' | 'K' => 'k' | 'L' => 'l'
  | 'M' => 'm' | 'N' => 'n' | 'O' => 'o' | 'P' => 'p' | 'Q' => 'q' | 'R' => 'r'
  | 'S' => 's' | 'T' => 't' | 'U' => 'u' | 'V' => 'v' | 'W' => 'w' | 'X' => 'x'
  | 'Y' => 'y' | 'Z' => 'z'
  | other => other

/-- Python `str.lower()`. -/
def pyLower (s : Str) : Str := s.map pyLowerChar

/-- Python `str.strip()`: remove leading and trailing whitespace. -/
def pyStrip (s : Str) : Str :=
  ((s.dropWhile pyIsSpace).reverse.dropWhile pyIsSpace).reverse

/-- Helper for `pySplit`: `acc` is the current word accumulated in reverse. -/
def pySplitAux : Str → Str → List Str
  | [], acc => if acc = [] then [] else [acc.reverse]
  | c :: cs, acc =>
    if pyIsSpace c then
      if acc = [] then pySplitAux cs [] else acc.reverse :: pySplitAux cs []
    else pySplitAux cs (c :: acc)

/-- Python `str.split()` (no separator argument): maximal runs of
non-whitespace characters, with empty pieces never produced. -/
def pySplit (s : Str) : List Str := pySplitAux s []

/-- Python `sep.join(pieces)`. -/
def pyJoinWith (sep : Str) : List Str → Str
  | [] => []
  | [w] => w
  | w :: ws => w ++ sep ++ pyJoinWith sep ws

/-! ## Cache-key normalization (`_normalize_cache_key`, `_topic_key` in `src/app.py`) -/

/-- The common core of `_normalize_cache_key` and `_topic_key`:
`' '.join(value.strip().lower().split())`. -/
def pyNormWords (s : Str) : Str :=
  pyJoinWith [' '] (pySplit (pyLower (pyStrip s)))

/-- `_normalize_cache_key(value)`: `''` for `None`/empty input, else
`' '.join(value.strip().lower().split())`. -/
def normalize_cache_key (value : Option Str) : Str :=
  match value with
  | none => []
  | some s => if s = [] then [] else pyNormWords s

/-- `_topic_key(topic)`: `' '.join(str(topic or '').strip().lower().split())`. -/
def topic_key (topic : Str) : Str := pyNormWords topic

/-- Spec-side collapsing of whitespace runs: `pending` records that a
whitespace run is open; a single `' '` is emitted for it only when another
non-whitespace character follows, so a trailing run is dropped and every
internal run becomes exactly one space. -/
def squishAux (pending : Bool) : Str → Str
  | [] => []
  | c :: cs =>
    if pyIsSpace c then squishAux true cs
    else if pending then ' ' :: c :: squishAux false cs
    else c :: squishAux false cs

/-- Spec-side normalization: the trimmed (leading run removed by `dropWhile`,
trailing run dropped inside `squishAux`), lower-cased form of the input with
each internal whitespace run collapsed to a single space. -/
def specNormalize (s : Str) : Str :=
  squishAux false ((pyLower s).dropWhile pyIsSpace)

/-! ### `' '.join(s.split())` computes exactly the trim/lower/collapse form -/

theorem pyLowerChar_space {c : Char} (h : pyIsSpace c = true) : pyLowerChar c = c := by
  unfold pyLowerChar
  split <;> first | rfl | (revert h; decide)

theorem pyIsSpace_pyLowerChar (c : Char) : pyIsSpace (pyLowerChar c) = pyIsSpace c := by
  unfold pyLowerChar
  split <;> rfl

theorem squishAux_ws_nil (b : Bool) (w : Str) (hw : ∀ x ∈ w, pyIsSpace x = true) :
    squishAux b w = [] := by
  induction w generalizing b with
  | nil => rfl
  | cons c cs ih =>
    have hc := hw c (by simp)
    simp [squishAux, hc]
    exact ih true (fun x hx => hw x (by simp [hx]))

theorem squishAux_append_ws (b : Bool) (u w : Str)
    (hw : ∀ x ∈ w, pyIsSpace x = true) : squishAux b (u ++ w) = squishAux b u := by
  induction u generalizing b with
  | nil => simpa using squishAux_ws_nil b w hw
  | cons c cs ih =>
    by_cases hc : pyIsSpace c = true
    · simp [squishAux, hc, ih]
    · simp only [Bool.not_eq_true] at hc
      simp [squishAux, hc, ih]

theorem pySplitAux_ne_nil (s : Str) (acc : Str) (h : acc ≠ []) :
    pySplitAux s acc ≠ [] := by
  induction s generalizing acc with
  | nil => simp [pySplitAux, h]
  | cons c cs ih =>
    by_cases hc : pyIsSpace c = true
    · simp [pySplitAux, hc, h]
    · simp only [Bool.not_eq_true] at hc
      simp only [pySplitAux, hc]
      exact ih (c :: acc) (by simp)

theorem pySplitAux_nil_iff (s : Str) :
    pySplitAux s [] = [] ↔ s.dropWhile pyIsSpace = [] := by
  induction s with
  | nil => simp [pySplitAux]
  | cons c cs ih =>
    by_cases hc : pyIsSpace c = true
    · simpa [pySplitAux, hc, List.dropWhile_cons] using ih
    · simp only [Bool.not_eq_true] at hc
      simp only [pySplitAux, hc, List.dropWhile_cons, Bool.false_eq_true,
        if_false]
      constructor
      · intro h
        exact absurd h (pySplitAux_ne_nil cs [c] (by simp))
      · intro h
        exact absurd h (by simp)

theorem squishAux_true_eq (cs : Str) :
    squishAux true cs =
      if cs.dropWhile pyIsSpace = [] then []
      else ' ' :: squishAux false (cs.dropWhile pyIsSpace) := by
  induction cs with
  | nil => rfl
  | cons c cs ih =>
    by_cases hc : pyIsSpace c = true
    · simpa [squishAux, hc, List.dropWhile_cons] using ih
    · simp only [Bool.not_eq_true] at hc
      simp [squishAux, hc, List.dropWhile_cons]

theorem pyJoinWith_cons_ne (sep w : Str) (l : List Str) (h : l ≠ []) :
    pyJoinWith sep (w :: l) = w ++ sep ++ pyJoinWith sep l := by
  cases l with
  | nil => exact absurd rfl h
  | cons x xs => rfl

/-- Core relation between `str.split()` and the whitespace-collapsing state
machine: joining the split pieces with single spaces collapses every
whitespace run and trims both ends. -/
theorem join_pySplitAux (s : Str) :
    (pyJoinWith [' '] (pySplitAux s []) = squishAux false (s.dropWhile pyIsSpace)) ∧
    (∀ acc : Str, acc ≠ [] →
      pyJoinWith [' '] (pySplitAux s acc) = acc.reverse ++ squishAux false s) := by
  induction s with
  | nil =>
    refine ⟨rfl, fun acc h => ?_⟩
    simp [pySplitAux, h, pyJoinWith, squishAux]
  | cons c cs ih =>
    by_cases hc : pyIsSpace c = true
    · constructor
      · simp only [pySplitAux, hc, if_pos rfl, List.dropWhile_cons, hc, if_pos]
        exact ih.1
      · intro acc hacc
        simp only [pySplitAux, hc, if_pos, if_neg hacc]
        simp only [squishAux, hc, if_pos]
        rw [squishAux_true_eq]
        by_cases hnil : cs.dropWhile pyIsSpace = []
        · rw [if_pos hnil]
          have : pySplitAux cs [] = [] := (pySplitAux_nil_iff cs).2 hnil
          simp [this, pyJoinWith]
        · rw [if_neg hnil]
          have hne : pySplitAux cs [] ≠ [] := by
            intro h; exact hnil ((pySplitAux_nil_iff cs).1 h)
          rw [pyJoinWith_cons_ne _ _ _ hne, ih.1]
          simp
    · simp only [Bool.not_eq_true] at hc
      have step : ∀ acc : Str, pySplitAux (c :: cs) acc = pySplitAux cs (c :: acc) := by
        intro acc; simp [pySplitAux, hc]
      constructor
      · rw [step, ih.2 [c] (by simp)]
        simp [List.dropWhile_cons, hc, squishAux]
      · intro acc hacc
        rw [step, ih.2 (c :: acc) (by simp)]
        simp [squishAux, hc]

theorem dropWhile_append_ws (w x : Str) (hw : ∀ a ∈ w, pyIsSpace a = true) :
    (w ++ x).dropWhile pyIsSpace = x.dropWhile pyIsSpace := by
  induction w with
  | nil => rfl
  | cons a as ih =>
    simp only [List.cons_append, List.dropWhile_cons, hw a (by simp), if_pos]
    exact ih (fun b hb => hw b (by simp [hb]))

theorem head_dropWhile_false {p : Char → Bool} {l : Str} {c : Char} {cs : Str}
    (h : l.dropWhile p = c :: cs) : p c = false := by
  induction l with
  | nil => simp at h
  | cons a as ih =>
    by_cases ha : p a = true
    · rw [List.dropWhile_cons, if_pos ha] at h
      exact ih h
    · simp only [Bool.not_eq_true] at ha
      rw [List.dropWhile_cons, if_neg (by simp [ha])] at h
      cases h
      exact ha

theorem pyLower_dropWhile (s : Str) :
    pyLower (s.dropWhile pyIsSpace) = (pyLower s).dropWhile pyIsSpace := by
  induction s with
  | nil => rfl
  | cons c cs ih =>
    by_cases hc : pyIsSpace c = true
    · simp only [pyLower, List.map_cons, List.dropWhile_cons,
        pyIsSpace_pyLowerChar, hc, if_pos]
      exact ih
    · simp only [Bool.not_eq_true] at hc
      simp [pyLower, List.dropWhile_cons, pyIsSpace_pyLowerChar, hc]

/-- `pyStrip` decomposes its input's whitespace-trimmed prefix: the part after
dropping leading whitespace is the strip followed by an all-whitespace tail. -/
theorem strip_decomp (s : Str) :
    s.dropWhile pyIsSpace =
      pyStrip s ++ ((s.dropWhile pyIsSpace).reverse.takeWhile pyIsSpace).reverse := by
  conv_lhs => rw [← (s.dropWhile pyIsSpace).reverse_reverse,
    ← List.takeWhile_append_dropWhile (p := pyIsSpace)
      (l := (s.dropWhile pyIsSpace).reverse)]
  rw [List.reverse_append]
  rfl

theorem strip_dropWhile (s : Str) :
    (pyStrip s).dropWhile pyIsSpace = pyStrip s := by
  cases hP : pyStrip s with
  | nil => simp
  | cons p ps =>
    cases hu : s.dropWhile pyIsSpace with
    | nil =>
      have : pyStrip s = [] := by unfold pyStrip; rw [hu]; rfl
      rw [hP] at this; cases this
    | cons c cs =>
      have hc : pyIsSpace c = false := head_dropWhile_false hu
      have hdec := strip_decomp s
      rw [hu, hP] at hdec
      have hpc : c = p := by
        simpa using congrArg List.head? hdec
      subst hpc
      simp [List.dropWhile_cons, hc]

/-- `_normalize_cache_key`'s computation (`' '.join(value.strip().lower().split())`)
equals the spec-side trim/lowercase/collapse normal form. -/
theorem pyNormWords_eq_specNormalize (s : Str) : pyNormWords s = specNormalize s := by
  unfold pyNormWords specNormalize pySplit
  rw [(join_pySplitAux (pyLower (pyStrip s))).1]
  rw [← pyLower_dropWhile, strip_dropWhile]
  rw [← pyLower_dropWhile, strip_decomp s]
  unfold pyLower
  rw [List.map_append, squishAux_append_ws]
  intro a ha
  rcases List.mem_map.1 ha with ⟨b, hb, rfl⟩
  rw [pyIsSpace_pyLowerChar]
  rw [List.mem_reverse] at hb
  exact List.mem_takeWhile_imp hb

/-! ## The global AI caches (`ai_guidance_cache`, `study_notes_cache`)

A cache table is an association list of rows keyed by the normalized
`(position_key, topic_key, topic_path_key)` triple.  A table that does not
exist yet (migrations not run: the `sqlite3.OperationalError` / `no such
table` handler in the source) is modelled as `Option.none`. -/

/-- One row of `ai_guidance_cache` / `study_notes_cache`. -/
structure CacheRow where
  pkey : Str
  tkey : Str
  ppkey : Str
  value : Str
  provider : Option Str
  model : Option Str

abbrev CacheTable := List CacheRow

/-- A cache table; `none` models the table not existing yet. -/
abbrev CacheDB := Option CacheTable

/-- Row match on the composite unique key. -/
def rowMatches (pk tk ppk : Str) (r : CacheRow) : Bool :=
  r.pkey == pk && r.tkey == tk && r.ppkey == ppk

/-- `SELECT value ... WHERE position_key = ? AND topic_key = ? AND
topic_path_key = ? LIMIT 1`, with a missing table read as a miss. -/
def cacheLookup (db : CacheDB) (pk tk ppk : Str) : Option Str :=
  match db with
  | none => none
  | some rows => (rows.find? (rowMatches pk tk ppk)).map CacheRow.value

/-- `INSERT ... ON CONFLICT(position_key, topic_key, topic_path_key) DO UPDATE
SET ...`: overwrite the conflicting row's value and metadata, else append. -/
def cacheUpsertRows (rows : CacheTable) (pk tk ppk v : Str)
    (prov mdl : Option Str) : CacheTable :=
  if rows.any (rowMatches pk tk ppk) then
    rows.map (fun r =>
      if rowMatches pk tk ppk r then
        { r with value := v, provider := prov, model := mdl }
      else r)
  else rows ++ [⟨pk, tk, ppk, v, prov, mdl⟩]

/-- `_get_cached_ai_guidance(position, topic_name, topic_path)`. -/
def get_cached_ai_guidance (db : CacheDB)
    (position topic_name topic_path : Option Str) : Option Str :=
  cacheLookup db (normalize_cache_key position) (normalize_cache_key topic_name)
    (normalize_cache_key topic_path)

/-- `_upsert_cached_ai_guidance(...)`: a no-op for empty guidance, a silent
no-op when the table is missing, otherwise an upsert by composite key. -/
def upsert_cached_ai_guidance (db : CacheDB)
    (position topic_name topic_path : Option Str) (ai_guidance : Str)
    (prov mdl : Option Str) : CacheDB :=
  if ai_guidance = [] then db
  else
    match db with
    | none => none
    | some rows =>
      some (cacheUpsertRows rows (normalize_cache_key position)
        (normalize_cache_key topic_name) (normalize_cache_key topic_path)
        ai_guidance prov mdl)

/-- `_get_cached_study_notes(...)`: same lookup against `study_notes_cache`. -/
def get_cached_study_notes (db : CacheDB)
    (position topic_name topic_path : Option Str) : Option Str :=
  cacheLookup db (normalize_cache_key position) (normalize_cache_key topic_name)
    (normalize_cache_key topic_path)

/-- `_upsert_cached_study_notes(...)`: same upsert against `study_notes_cache`. -/
def upsert_cached_study_notes (db : CacheDB)
    (position topic_name topic_path : Option Str) (notes_markdown : Str)
    (prov mdl : Option Str) : CacheDB :=
  if notes_markdown = [] then db
  else
    match db with
    | none => none
    | some rows =>
      some (cacheUpsertRows rows (normalize_cache_key position)
        (normalize_cache_key topic_name) (normalize_cache_key topic_path)
        notes_markdown prov mdl)

/-! ## `generate_ai_guidance` (the `/api/topics/<id>/ai-guidance` handler) -/

/-- The topic row fields the handler reads. -/
structure TopicRow where
  topic_name : Str
  category_name : Option Str
  ai_guidance : Option Str

/-- The interview ("study material") row fields the handler reads. -/
structure InterviewRow where
  position : Option Str

/-- Python truthiness of an optional string. -/
def truthy (o : Option Str) : Bool :=
  match o with
  | none => false
  | some s => s != []

/-- Environment of one request: database lookups and the external AI
providers, given as inputs (an `Except.error` models a raised exception in
the provider call). -/
structure GuidanceEnv where
  topic : Option TopicRow
  interview : Option InterviewRow
  force : Bool
  groqKey : Bool
  groqLib : Bool
  geminiKey : Bool
  genaiLib : Bool
  groqCall : Except Str Str
  geminiCall : Except Str Str
  cache : CacheDB

/-- The JSON/status payload `jsonify(...)` builds. -/
structure ApiResponse where
  status : Nat
  ai_guidance : Option Str := none
  message : Option Str := none
  error : Option Str := none
deriving DecidableEq

/-- Result of one request: the response plus the observable side effects. -/
structure GenOutcome where
  response : ApiResponse
  /-- value written to the topic row by `_save_ai_guidance`, if any -/
  topicSaved : Option Str
  cacheAfter : CacheDB
  groqCalled : Bool
  geminiCalled : Bool

/-- `parent_path_raw`: the stripped category name when non-blank, else `None`. -/
def parentPathRaw (topic : TopicRow) : Option Str :=
  match topic.category_name with
  | some s => if pyStrip s ≠ [] then some (pyStrip s) else none
  | none => none

/-- `topic_path_key_source`: the raw `" > "` path used as the stable global
cache key (`f"{parent_path_raw} > {topic_name}"` when a parent path exists). -/
def topicPathKeySource (topic : TopicRow) : Str :=
  match parentPathRaw topic with
  | some p => p ++ str " > " ++ topic.topic_name
  | none => topic.topic_name

/-- The final error message of the handler's fallthrough branch. -/
def guidanceFallbackError (groqKey groqLib geminiKey genaiLib : Bool) : Str :=
  if !groqKey && !geminiKey then
    str "No AI API key configured. Set GROQ_API_KEY or GOOGLE_API_KEY environment variable.\n\nFree options:\n- Groq: https://console.groq.com (fast, generous free tier)\n- Google Gemini: https://makersuite.google.com/app/apikey (60 requests/min free)"
  else if groqKey && !groqLib then
    str "Groq library not available. Please reinstall: pip install groq"
  else if geminiKey && !genaiLib then
    str "Google Gemini library not available. Please reinstall: pip install google-generativeai"
  else
    str "Failed to generate AI guidance."

/-- `generate_ai_guidance(topic_id)`: the handler's control flow, from the
topic/interview lookups through the local-artifact check, the global cache
check, the Groq branch, the Gemini branch, and the fallthrough error. -/
def generate_ai_guidance (env : GuidanceEnv) : GenOutcome :=
  match env.topic with
  | none =>
    ⟨⟨404, none, none, some (str "Topic not found")⟩, none, env.cache, false, false⟩
  | some topic =>
    match env.interview with
    | none =>
      ⟨⟨404, none, none, some (str "Study material not found")⟩, none, env.cache,
        false, false⟩
    | some interview =>
      let position := interview.position
      let topic_name := topic.topic_name
      let existing := topic.ai_guidance
      if truthy existing && !env.force then
        ⟨⟨200, existing, some (str "Using cached AI guidance"), none⟩, none,
          env.cache, false, false⟩
      else
        let topic_path_key_source : Str := topicPathKeySource topic
        let globalHit : Option Str :=
          if env.force then none
          else get_cached_ai_guidance env.cache position (some topic_name)
            (some topic_path_key_source)
        if truthy globalHit then
          ⟨⟨200, globalHit, some (str "Using global cached AI guidance"), none⟩,
            globalHit, env.cache, false, false⟩
        else if env.groqKey && env.groqLib then
          match env.groqCall with
          | .ok content =>
            let g := pyStrip content
            ⟨⟨200, some g, some (str "AI guidance generated successfully"), none⟩,
              some g,
              upsert_cached_ai_guidance env.cache position (some topic_name)
                (some topic_path_key_source) g (some (str "groq"))
                (some (str "llama-3.1-8b-instant")),
              true, false⟩
          | .error e =>
            ⟨⟨500, none, none,
                some (str "Groq API error: " ++ e ++ str ". Check server logs for details.")⟩,
              none, env.cache, true, false⟩
        else if env.geminiKey && env.genaiLib then
          match env.geminiCall with
          | .ok content =>
            let g := pyStrip content
            ⟨⟨200, some g, some (str "AI guidance generated successfully"), none⟩,
              some g,
              upsert_cached_ai_guidance env.cache position (some topic_name)
                (some topic_path_key_source) g (some (str "gemini"))
                (some (str "gemini-pro")),
              false, true⟩
          | .error _ =>
            ⟨⟨500, none, none,
                some (guidanceFallbackError env.groqKey env.groqLib env.geminiKey
                  env.genaiLib)⟩,
              none, env.cache, false, true⟩
        else
          ⟨⟨500, none, none,
              some (guidanceFallbackError env.groqKey env.groqLib env.geminiKey
                env.genaiLib)⟩,
            none, env.cache, false, false⟩

/-! ### Cache lemmas -/

theorem rowMatches_update (pk tk ppk : Str) (r : CacheRow) (v : Str)
    (prov mdl : Option Str) (h : rowMatches pk tk ppk r = true) :
    rowMatches pk tk ppk { r with value := v, provider := prov, model := mdl } = true := by
  simpa [rowMatches] using h

/-- Looking a key up right after upserting it returns the upserted value. -/
theorem cacheLookup_upsertRows (rows : CacheTable) (pk tk ppk v : Str)
    (prov mdl : Option Str) :
    cacheLookup (some (cacheUpsertRows rows pk tk ppk v prov mdl)) pk tk ppk =
      some v := by
  induction rows with
  | nil =>
    simp [cacheLookup, cacheUpsertRows, List.find?, rowMatches]
  | cons r rs ih =>
    by_cases hr : rowMatches pk tk ppk r = true
    · have honly : rowMatches pk tk ppk
          { r with value := v, provider := prov, model := mdl } = true :=
        rowMatches_update pk tk ppk r v prov mdl hr
      simp [cacheLookup, cacheUpsertRows, List.any_cons, hr, List.find?, honly]
    · have hr' : rowMatches pk tk ppk r = false := by
        simpa using hr
      by_cases ha : rs.any (rowMatches pk tk ppk) = true
      · have ihs := ih
        simp only [cacheLookup, cacheUpsertRows, ha, if_pos, List.any_cons, hr',
          Bool.false_or, List.map_cons, List.find?, hr', if_true] at ihs ⊢
        simpa [hr'] using ihs
      · have ha' : rs.any (rowMatches pk tk ppk) = false := by simpa using ha
        have ihs := ih
        simp only [cacheLookup, cacheUpsertRows, ha', List.any_cons, hr',
          Bool.false_or, List.find?] at ihs ⊢
        simpa [hr'] using ihs

/-- `normalize_cache_key` on a present string is exactly the spec-side
normal form (including the empty-string guard). -/
theorem normalize_cache_key_some (s : Str) :
    normalize_cache_key (some s) = specNormalize s := by
  by_cases hs : s = []
  · subst hs; rfl
  · simp [normalize_cache_key, hs, pyNormWords_eq_specNormalize]

/-- C2: the cache-key normalization maps every string to its trimmed,
lower-cased form with internal whitespace runs collapsed to single spaces;
consequently any two inputs with the same normal form (e.g. inputs differing
only in case or whitespace) produce the same composite cache key, and a value
stored in the guidance cache or the notes cache under one input is returned
by a lookup under the other. -/
theorem claim_C2_cache_key_normalization :
    (∀ s : Str, pyNormWords s = specNormalize s) ∧
    (∀ s t : Str, specNormalize s = specNormalize t →
      normalize_cache_key (some s) = normalize_cache_key (some t)) ∧
    (∀ (rows : CacheTable) (p1 t1 pp1 p2 t2 pp2 v : Str) (prov mdl : Option Str),
      specNormalize p1 = specNormalize p2 →
      specNormalize t1 = specNormalize t2 →
      specNormalize pp1 = specNormalize pp2 →
      v ≠ [] →
      get_cached_ai_guidance
          (upsert_cached_ai_guidance (some rows) (some p1) (some t1) (some pp1)
            v prov mdl) (some p2) (some t2) (some pp2) = some v ∧
      get_cached_study_notes
          (upsert_cached_study_notes (some rows) (some p1) (some t1) (some pp1)
            v prov mdl) (some p2) (some t2) (some pp2) = some v) := by
  refine ⟨pyNormWords_eq_specNormalize, ?_, ?_⟩
  · intro s t h
    rw [normalize_cache_key_some, normalize_cache_key_some, h]
  · intro rows p1 t1 pp1 p2 t2 pp2 v prov mdl hp ht hpp hv
    have hkp : normalize_cache_key (some p1) = normalize_cache_key (some p2) := by
      rw [normalize_cache_key_some, normalize_cache_key_some, hp]
    have hkt : normalize_cache_key (some t1) = normalize_cache_key (some t2) := by
      rw [normalize_cache_key_some, normalize_cache_key_some, ht]
    have hkpp : normalize_cache_key (some pp1) = normalize_cache_key (some pp2) := by
      rw [normalize_cache_key_some, normalize_cache_key_some, hpp]
    constructor
    · unfold upsert_cached_ai_guidance get_cached_ai_guidance
      rw [if_neg hv]
      rw [← hkp, ← hkt, ← hkpp]
      exact cacheLookup_upsertRows rows _ _ _ v prov mdl
    · unfold upsert_cached_study_notes get_cached_study_notes
      rw [if_neg hv]
      rw [← hkp, ← hkt, ← hkpp]
      exact cacheLookup_upsertRows rows _ _ _ v prov mdl

/-- Witness for C2 at the spec's own example inputs: storing guidance under
`"Machine Learning"` and looking it up under `"  machine   learning  "`. -/
theorem claim_C2_witness :
    get_cached_ai_guidance
        (upsert_cached_ai_guidance (some []) (some (str "Data Scientist"))
          (some (str "Machine Learning")) (some (str "ML Path")) (str "guidance text")
          none none)
        (some (str " data  scientist")) (some (str "  machine   learning  "))
        (some (str "ml  PATH ")) = some (str "guidance text") ∧
    get_cached_study_notes
        (upsert_cached_study_notes (some []) (some (str "Data Scientist"))
          (some (str "Machine Learning")) (some (str "ML Path")) (str "guidance text")
          none none)
        (some (str " data  scientist")) (some (str "  machine   learning  "))
        (some (str "ml  PATH ")) = some (str "guidance text") :=
  claim_C2_cache_key_normalization.2.2 [] _ _ _ _ _ _ _ none none
    (by decide) (by decide) (by decide) (by decide)

theorem truthy_some_iff (s : Str) : truthy (some s) = true ↔ s ≠ [] := by
  simp [truthy]

theorem truthy_none : truthy none = false := rfl

/-- C3: a missing cache table is a miss for reads (both the guidance cache
and the notes cache), a silent no-op for writes, and the guidance request
behaves exactly as with an existing empty table — the caller sees no error. -/
theorem claim_C3_missing_cache_table :
    (∀ p t pp : Option Str, get_cached_ai_guidance none p t pp = none) ∧
    (∀ p t pp : Option Str, get_cached_study_notes none p t pp = none) ∧
    (∀ (p t pp : Option Str) (v : Str) (prov mdl : Option Str),
      upsert_cached_ai_guidance none p t pp v prov mdl = none) ∧
    (∀ (p t pp : Option Str) (v : Str) (prov mdl : Option Str),
      upsert_cached_study_notes none p t pp v prov mdl = none) ∧
    (∀ env : GuidanceEnv, env.cache = none →
      (generate_ai_guidance env).response =
        (generate_ai_guidance { env with cache := some [] }).response) := by
  refine ⟨fun _ _ _ => rfl, fun _ _ _ => rfl, ?_, ?_, ?_⟩
  · intro p t pp v prov mdl
    unfold upsert_cached_ai_guidance
    split <;> rfl
  · intro p t pp v prov mdl
    unfold upsert_cached_study_notes
    split <;> rfl
  · intro env hc
    rcases env with ⟨topic, interview, force, gk, gl, gmk, gml, gc, mc, cache⟩
    simp only at hc
    subst hc
    cases topic with
    | none => rfl
    | some t =>
      cases interview with
      | none => rfl
      | some i =>
        cases htr : truthy t.ai_guidance <;> cases force <;> cases gk <;>
          cases gl <;> cases gmk <;> cases gml <;> cases gc <;> cases mc <;>
          simp [generate_ai_guidance, htr, get_cached_ai_guidance, cacheLookup,
            upsert_cached_ai_guidance, truthy_none]

/-- Witness for C3's hypothesis-bearing part at a concrete request whose
cache table is missing. -/
theorem claim_C3_witness :
    (generate_ai_guidance
        ⟨some ⟨str "Arrays", none, none⟩, some ⟨some (str "SWE")⟩, false,
          true, true, false, false, .ok (str "fresh"), .error [], none⟩).response =
      (generate_ai_guidance
        ⟨some ⟨str "Arrays", none, none⟩, some ⟨some (str "SWE")⟩, false,
          true, true, false, false, .ok (str "fresh"), .error [], some []⟩).response :=
  claim_C3_missing_cache_table.2.2.2.2
    ⟨some ⟨str "Arrays", none, none⟩, some ⟨some (str "SWE")⟩, false,
      true, true, false, false, .ok (str "fresh"), .error [], none⟩ rfl

/-- C1: the guidance request's caching behaviour.  Without `force`: a
non-empty local artifact is returned as-is with the cached message and no
provider call and no writes; otherwise a (non-empty) global cache hit is
copied to the topic row and returned without a provider call or cache write;
otherwise Groq is called and the result is persisted both to the topic row
and to the global cache.  With `force`, the provider is called and both the
topic row and the global cache are overwritten even if cached values exist. -/
theorem claim_C1_guidance_cache_flow :
    ∀ (env : GuidanceEnv) (topic : TopicRow) (interview : InterviewRow),
      env.topic = some topic → env.interview = some interview →
      (env.force = false → truthy topic.ai_guidance = true →
        generate_ai_guidance env =
          ⟨⟨200, topic.ai_guidance, some (str "Using cached AI guidance"), none⟩,
            none, env.cache, false, false⟩) ∧
      (env.force = false → truthy topic.ai_guidance = false →
        ∀ v : Str, v ≠ [] →
        get_cached_ai_guidance env.cache interview.position
            (some topic.topic_name) (some (topicPathKeySource topic)) = some v →
        generate_ai_guidance env =
          ⟨⟨200, some v, some (str "Using global cached AI guidance"), none⟩,
            some v, env.cache, false, false⟩) ∧
      (env.force = false → truthy topic.ai_guidance = false →
        truthy (get_cached_ai_guidance env.cache interview.position
            (some topic.topic_name) (some (topicPathKeySource topic))) = false →
        env.groqKey = true → env.groqLib = true →
        ∀ t : Str, env.groqCall = .ok t →
        generate_ai_guidance env =
          ⟨⟨200, some (pyStrip t),
              some (str "AI guidance generated successfully"), none⟩,
            some (pyStrip t),
            upsert_cached_ai_guidance env.cache interview.position
              (some topic.topic_name) (some (topicPathKeySource topic))
              (pyStrip t) (some (str "groq")) (some (str "llama-3.1-8b-instant")),
            true, false⟩) ∧
      (env.force = true →
        env.groqKey = true → env.groqLib = true →
        ∀ t : Str, env.groqCall = .ok t →
        generate_ai_guidance env =
          ⟨⟨200, some (pyStrip t),
              some (str "AI guidance generated successfully"), none⟩,
            some (pyStrip t),
            upsert_cached_ai_guidance env.cache interview.position
              (some topic.topic_name) (some (topicPathKeySource topic))
              (pyStrip t) (some (str "groq")) (some (str "llama-3.1-8b-instant")),
            true, false⟩) := by
  intro env topic interview htopic hint
  refine ⟨?_, ?_, ?_, ?_⟩
  · intro hforce htr
    simp [generate_ai_guidance, htopic, hint, hforce, htr]
  · intro hforce htr v hv hget
    have htrv : truthy (some v) = true := (truthy_some_iff v).2 hv
    simp [generate_ai_guidance, htopic, hint, hforce, htr, hget, htrv]
  · intro hforce htr hmiss hgk hgl t hcall
    simp [generate_ai_guidance, htopic, hint, hforce, htr, hmiss, hgk, hgl, hcall]
  · intro hforce hgk hgl t hcall
    simp [generate_ai_guidance, htopic, hint, hforce, hgk, hgl, hcall, truthy]

/-- Concrete request with a locally cached artifact (C1 witness). -/
def envLocalHit : GuidanceEnv :=
  ⟨some ⟨str "Arrays", none, some (str "old guidance")⟩, some ⟨some (str "SWE")⟩,
    false, true, true, false, false, .ok (str "fresh"), .error [], some []⟩

/-- Concrete request with a global cache hit (C1 witness). -/
def envGlobalHit : GuidanceEnv :=
  ⟨some ⟨str "Arrays", none, none⟩, some ⟨some (str "SWE")⟩, false,
    true, true, false, false, .ok (str "fresh"), .error [],
    some [⟨str "swe", str "arrays", str "arrays", str "global guidance",
      none, none⟩]⟩

/-- Concrete request with both caches empty and a succeeding Groq call. -/
def envCacheMiss : GuidanceEnv :=
  ⟨some ⟨str "Arrays", none, none⟩, some ⟨some (str "SWE")⟩, false,
    true, true, false, false, .ok (str " fresh "), .error [], some []⟩

/-- Concrete forced request with both caches populated (C1 witness). -/
def envForced : GuidanceEnv :=
  ⟨some ⟨str "Arrays", none, some (str "old guidance")⟩, some ⟨some (str "SWE")⟩,
    true, true, true, false, false, .ok (str " fresh "), .error [],
    some [⟨str "swe", str "arrays", str "arrays", str "global guidance",
      none, none⟩]⟩

/-- Witness for C1 covering all four scenarios at concrete requests. -/
theorem claim_C1_witness :
    (generate_ai_guidance envLocalHit =
      ⟨⟨200, some (str "old guidance"), some (str "Using cached AI guidance"),
          none⟩, none, some [], false, false⟩) ∧
    (generate_ai_guidance envGlobalHit =
      ⟨⟨200, some (str "global guidance"),
          some (str "Using global cached AI guidance"), none⟩,
        some (str "global guidance"),
        some [⟨str "swe", str "arrays", str "arrays", str "global guidance",
          none, none⟩], false, false⟩) ∧
    (generate_ai_guidance envCacheMiss =
      ⟨⟨200, some (str "fresh"),
          some (str "AI guidance generated successfully"), none⟩,
        some (str "fresh"),
        upsert_cached_ai_guidance (some []) (some (str "SWE"))
          (some (str "Arrays")) (some (str "Arrays")) (str "fresh")
          (some (str "groq")) (some (str "llama-3.1-8b-instant")),
        true, false⟩) ∧
    (generate_ai_guidance envForced =
      ⟨⟨200, some (str "fresh"),
          some (str "AI guidance generated successfully"), none⟩,
        some (str "fresh"),
        upsert_cached_ai_guidance
          (some [⟨str "swe", str "arrays", str "arrays", str "global guidance",
            none, none⟩])
          (some (str "SWE")) (some (str "Arrays")) (some (str "Arrays"))
          (str "fresh") (some (str "groq")) (some (str "llama-3.1-8b-instant")),
        true, false⟩) := by
  refine ⟨?_, ?_, ?_, ?_⟩
  · exact (claim_C1_guidance_cache_flow envLocalHit
      ⟨str "Arrays", none, some (str "old guidance")⟩ ⟨some (str "SWE")⟩
      rfl rfl).1 rfl (by decide)
  · exact (claim_C1_guidance_cache_flow envGlobalHit
      ⟨str "Arrays", none, none⟩ ⟨some (str "SWE")⟩ rfl rfl).2.1 rfl (by decide)
      (str "global guidance") (by decide) (by decide)
  · exact (claim_C1_guidance_cache_flow envCacheMiss
      ⟨str "Arrays", none, none⟩ ⟨some (str "SWE")⟩ rfl rfl).2.2.1 rfl
      (by decide) (by decide) rfl rfl (str " fresh ") rfl
  · exact (claim_C1_guidance_cache_flow envForced
      ⟨str "Arrays", none, some (str "old guidance")⟩ ⟨some (str "SWE")⟩
      rfl rfl).2.2.2 rfl rfl rfl (str " fresh ") rfl

/-- C5: when the request reaches generation while the Groq key is configured
and the library importable, a raised Groq call fails the request with the
provider's error message embedded, and Gemini is not attempted; Gemini is
attempted only when the Groq key or library is absent. -/
theorem claim_C5_primary_provider_error :
    (∀ (env : GuidanceEnv) (topic : TopicRow) (interview : InterviewRow),
      env.topic = some topic → env.interview = some interview →
      (truthy topic.ai_guidance && !env.force) = false →
      truthy (if env.force then none
        else get_cached_ai_guidance env.cache interview.position
          (some topic.topic_name) (some (topicPathKeySource topic))) = false →
      env.groqKey = true → env.groqLib = true →
      ∀ e : Str, env.groqCall = .error e →
      generate_ai_guidance env =
        ⟨⟨500, none, none,
            some (str "Groq API error: " ++ e ++
              str ". Check server logs for details.")⟩,
          none, env.cache, true, false⟩) ∧
    (∀ env : GuidanceEnv, (generate_ai_guidance env).geminiCalled = true →
      (env.groqKey && env.groqLib) = false) := by
  constructor
  · intro env topic interview htopic hint hnotlocal hmiss hgk hgl e hcall
    simp [generate_ai_guidance, htopic, hint, hnotlocal, hmiss, hgk, hgl, hcall]
  · intro env h
    rcases env with ⟨etopic, eint, force, gk, gl, gmk, gml, gc, mc, cache⟩
    cases gk with
    | false => rfl
    | true =>
      cases gl with
      | false => rfl
      | true =>
        exfalso
        cases etopic with
        | none => simp [generate_ai_guidance] at h
        | some t =>
          cases eint with
          | none => simp [generate_ai_guidance] at h
          | some i =>
            cases htr : truthy t.ai_guidance <;> cases force <;>
              cases hgh : truthy (get_cached_ai_guidance cache i.position
                (some t.topic_name) (some (topicPathKeySource t))) <;>
              cases gc <;> cases mc <;>
              simp [generate_ai_guidance, htr, hgh, truthy_none] at h

/-- Witness for C5: a concrete request where the Groq call raises, and a
concrete request that reaches Gemini. -/
theorem claim_C5_witness :
    (generate_ai_guidance
        ⟨some ⟨str "Arrays", none, none⟩, some ⟨some (str "SWE")⟩, false,
          true, true, true, true, .error (str "rate limit"), .ok (str "g"),
          some []⟩ =
      ⟨⟨500, none, none,
          some (str "Groq API error: " ++ str "rate limit" ++
            str ". Check server logs for details.")⟩,
        none, some [], true, false⟩) ∧
    ((⟨some ⟨str "Arrays", none, none⟩, some ⟨some (str "SWE")⟩, false,
        false, true, true, true, .error (str "x"), .ok (str "g"),
        some []⟩ : GuidanceEnv).groqKey &&
      (⟨some ⟨str "Arrays", none, none⟩, some ⟨some (str "SWE")⟩, false,
        false, true, true, true, .error (str "x"), .ok (str "g"),
        some []⟩ : GuidanceEnv).groqLib) = false := by
  constructor
  · exact (claim_C5_primary_provider_error.1 _ _ _ rfl rfl (by decide)
      (by decide) rfl rfl (str "rate limit") rfl)
  · exact claim_C5_primary_provider_error.2
      ⟨some ⟨str "Arrays", none, none⟩, some ⟨some (str "SWE")⟩, false,
        false, true, true, true, .error (str "x"), .ok (str "g"), some []⟩
      (by decide)

/-! ## `load_default_topics` (hierarchical `topics.json` flattening) -/

/-- Topic priority. -/
inductive Priority where
  | high
  | medium
  | low
deriving DecidableEq, Repr

mutual
/-- One node of the hierarchical topic configuration: a name, nested
subcategories, and direct leaf topics (absent JSON keys are the empty
forest / empty list). -/
inductive TopicNode where
  | mk (name : Str) (subcategories : TopicForest) (topics : List Str)

/-- A list of sibling category nodes. -/
inductive TopicForest where
  | nil
  | cons (head : TopicNode) (tail : TopicForest)
end

/-- One flattened topic as produced by `load_default_topics`. -/
structure FlatTopic where
  name : Str
  category : Option Str
  priority : Priority
deriving DecidableEq, Repr

/-- The parsed `topics.json`: top-level categories plus uncategorized topics. -/
structure TopicsConfig where
  categories : TopicForest
  uncategorized_topics : List Str

mutual
/-- `process_node(node, path_parts)`: recursively flatten a node, descending
into subcategories first, then emitting the node's direct topics with the
`' > '`-joined category path and `high` priority exactly at indices 0 and 1. -/
def process_node : TopicNode → List Str → List FlatTopic
  | .mk name subs tops, path =>
    let current := if name = [] then path else path ++ [name]
    process_forest subs current ++
      tops.enum.map (fun it =>
        { name := it.2,
          category :=
            if current = [] then none else some (pyJoinWith (str " > ") current),
          priority := if it.1 < 2 then Priority.high else Priority.medium })

/-- The `for subcat in node.get('subcategories', [])` loop. -/
def process_forest : TopicForest → List Str → List FlatTopic
  | .nil, _ => []
  | .cons n ns, path => process_node n path ++ process_forest ns path
end

/-- `load_default_topics()`: `none` models a missing or unparseable
`topics.json` (both fall back to `[]`); otherwise every top-level category is
processed from an empty path and the uncategorized topics are appended with no
category and `medium` priority.  No truncation is applied. -/
def load_default_topics : Option TopicsConfig → List FlatTopic
  | none => []
  | some d =>
    process_forest d.categories [] ++
      d.uncategorized_topics.map (fun t => ⟨t, none, Priority.medium⟩)

mutual
/-- Spec-side leaf enumeration: each leaf topic of the tree, tagged with the
names of its ancestors (root first) and its index among its parent's direct
topics, in depth-first order (subcategories before direct topics). -/
def specLeaves : TopicNode → List Str → List (Str × List Str × Nat)
  | .mk name subs tops, ancestors =>
    let anc := if name = [] then ancestors else ancestors ++ [name]
    specLeavesForest subs anc ++ tops.enum.map (fun it => (it.2, anc, it.1))

/-- Leaves of a forest of sibling nodes. -/
def specLeavesForest : TopicForest → List Str → List (Str × List Str × Nat)
  | .nil, _ => []
  | .cons n ns, ancestors => specLeaves n ancestors ++ specLeavesForest ns ancestors
end

/-- Spec-side interpretation of one leaf: category is the `" > "`-join of the
ancestor names (or none for an empty path), priority is `high` exactly for the
first two topics under the parent node. -/
def specLeafTopic (l : Str × List Str × Nat) : FlatTopic :=
  { name := l.1,
    category :=
      if l.2.1 = [] then none else some (pyJoinWith (str " > ") l.2.1),
    priority := if l.2.2 < 2 then Priority.high else Priority.medium }

/-- Spec-side flattening of a configuration. -/
def specFlatten (cfg : TopicsConfig) : List FlatTopic :=
  (specLeavesForest cfg.categories []).map specLeafTopic ++
    cfg.uncategorized_topics.map (fun t => ⟨t, none, Priority.medium⟩)

/-- Total number of leaf topics in the categorized part of a configuration. -/
def totalLeaves (cfg : TopicsConfig) : Nat :=
  (specLeavesForest cfg.categories []).length

theorem process_eq_spec :
    ∀ n : Nat,
      (∀ node : TopicNode, sizeOf node ≤ n → ∀ path : List Str,
        process_node node path = (specLeaves node path).map specLeafTopic) ∧
      (∀ ns : TopicForest, sizeOf ns ≤ n → ∀ path : List Str,
        process_forest ns path = (specLeavesForest ns path).map specLeafTopic) := by
  intro n
  induction n with
  | zero =>
    constructor
    · intro node h
      cases node with
      | mk name subs tops =>
        simp only [TopicNode.mk.sizeOf_spec] at h
        omega
    · intro ns h
      cases ns with
      | nil => intro path; rfl
      | cons x xs =>
        simp only [TopicForest.cons.sizeOf_spec] at h
        omega
  | succ n ih =>
    constructor
    · intro node hle path
      cases node with
      | mk name subs tops =>
        simp only [process_node, specLeaves, List.map_append, List.map_map]
        congr 1
        apply ih.2 subs
        simp only [TopicNode.mk.sizeOf_spec] at hle
        omega
    · intro ns hle path
      cases ns with
      | nil => rfl
      | cons x xs =>
        simp only [process_forest, specLeavesForest, List.map_append]
        congr 1
        · apply ih.1 x
          simp only [TopicForest.cons.sizeOf_spec] at hle
          omega
        · apply ih.2 xs
          simp only [TopicForest.cons.sizeOf_spec] at hle
          omega

/-- C4: flattening a well-formed hierarchical topic configuration yields the
depth-first leaf list where each leaf's category is the `" > "`-join of its
ancestor names, the first two topics under any parent node are `high` priority
and the rest `medium`, uncategorized topics are appended with no category and
`medium` priority, and the full list is returned uncapped (its length is the
total leaf count plus the uncategorized count); the spec's own example
configuration (`A` → `A1` → `[x, y, w]`, uncategorized `z`) flattens exactly
as described. -/
theorem claim_C4_topic_flattening :
    (∀ cfg : TopicsConfig, load_default_topics (some cfg) = specFlatten cfg) ∧
    (∀ cfg : TopicsConfig,
      (load_default_topics (some cfg)).length =
        totalLeaves cfg + cfg.uncategorized_topics.length) ∧
    (load_default_topics (some
        ⟨.cons (TopicNode.mk (str "A")
            (.cons (TopicNode.mk (str "A1") .nil [str "x", str "y", str "w"]) .nil)
            []) .nil,
          [str "z"]⟩) =
      [⟨str "x", some (str "A > A1"), Priority.high⟩,
       ⟨str "y", some (str "A > A1"), Priority.high⟩,
       ⟨str "w", some (str "A > A1"), Priority.medium⟩,
       ⟨str "z", none, Priority.medium⟩]) := by
  have hmain : ∀ cfg : TopicsConfig,
      load_default_topics (some cfg) = specFlatten cfg := by
    intro cfg
    simp only [load_default_topics, specFlatten]
    congr 1
    exact (process_eq_spec (sizeOf cfg.categories)).2 cfg.categories le_rfl []
  refine ⟨hmain, ?_, by decide⟩
  intro cfg
  rw [hmain]
  unfold specFlatten totalLeaves
  simp

/-! ## Text extraction (`_extract_text_ipynb`, `_extract_text_pdf`) -/

/-- The characters Python's `str.splitlines()` treats as line boundaries. -/
def isLineBreakChar (c : Char) : Bool :=
  c == '\n' || c == '\r' || c.toNat == 11 || c.toNat == 12 || c.toNat == 28 ||
  c.toNat == 29 || c.toNat == 30 || c.toNat == 133 || c.toNat == 8232 ||
  c.toNat == 8233

/-- Helper for `pySplitlines`: `acc` is the current line accumulated in
reverse; `\r\n` counts as a single boundary; no trailing empty line is
produced. -/
def pySplitlinesAux : Str → Str → List Str
  | [], acc => if acc = [] then [] else [acc.reverse]
  | '\r' :: '\n' :: rest, acc => acc.reverse :: pySplitlinesAux rest []
  | '\r' :: rest, acc => acc.reverse :: pySplitlinesAux rest []
  | c :: cs, acc =>
    if isLineBreakChar c then acc.reverse :: pySplitlinesAux cs []
    else pySplitlinesAux cs (c :: acc)

/-- Python `str.splitlines()`. -/
def pySplitlines (s : Str) : List Str := pySplitlinesAux s []

/-- One well-formed notebook cell after its fields were read successfully:
its `cell_type` string and its `source` joined into one string. -/
structure NotebookCell where
  cell_type : Str
  source : Str

/-- The code-cell line filter: keep a line exactly when its stripped form is
non-empty and starts with `import `, `from `, `def `, `class `, or `#`. -/
def lineKeep (line : Str) : Bool :=
  let l := pyStrip line
  l != [] &&
    ((str "import ").isPrefixOf l || (str "from ").isPrefixOf l ||
      (str "def ").isPrefixOf l || (str "class ").isPrefixOf l ||
      (str "#").isPrefixOf l)

/-- The kept lines of one code cell's (stripped) source. -/
def keptCodeLines (src : Str) : List Str :=
  (pySplitlines (pyStrip src)).filter lineKeep

/-- The contribution of one cell to the extracted text: markdown source
verbatim; for code cells the kept lines, capped at 80 (`keep[:80]`), wrapped
in a ```` ```python ```` fence; nothing for empty code or other cell types. -/
def cellPart (c : NotebookCell) : Option Str :=
  if c.cell_type = str "markdown" then some c.source
  else if c.cell_type = str "code" then
    if pyStrip c.source = [] then none
    else if keptCodeLines c.source = [] then none
    else some (str "```python\n" ++
      pyJoinWith (str "\n") ((keptCodeLines c.source).take 80) ++ str "\n```")
  else none

/-- The parsed JSON value of one cell's `source` field: a string, a list of
pieces (`none` models a non-string element, on which `''.join` raises
`TypeError`), or any other JSON value, carried as the string
`str(src or '')` renders it to (no exception on that path). -/
inductive CellSource where
  | strVal (s : Str)
  | listVal (pieces : List (Option Str))
  | otherVal (rendered : Str)

/-- One element of the parsed notebook's `cells` list: a JSON object with an
optional `cell_type` (where `none` covers an absent or non-string value, both
of which match neither `'markdown'` nor `'code'`) and an optional `source`
(absent defaults to `''`), or any non-object value, on which `c.get` raises
`AttributeError` — the cell loop of `_extract_text_ipynb` is not guarded by
the `try` around `json.loads`, so these exceptions escape the function. -/
inductive NotebookCellJson where
  | obj (cell_type : Option Str) (source : Option CellSource)
  | nonDict

/-- `''.join(src)` over the pieces of a list-valued source: `none` when some
piece is not a string (Python raises `TypeError`). -/
def joinSourcePieces : List (Option Str) → Option Str
  | [] => some []
  | none :: _ => none
  | some s :: rest =>
    match joinSourcePieces rest with
    | none => none
    | some r => some (s ++ r)

/-- Reading one cell's fields, in the source's order: `c.get('cell_type')`
(raising `AttributeError` on a non-object cell), then the source string via
`c.get('source', '')` / `''.join(src)` / `str(src or '')`. -/
def readCellFields (c : NotebookCellJson) : Except Str (Option Str × Str) :=
  match c with
  | .nonDict => .error (str "AttributeError")
  | .obj ctype srcv =>
    match srcv with
    | none => .ok (ctype, [])
    | some (.strVal s) => .ok (ctype, s)
    | some (.otherVal r) => .ok (ctype, r)
    | some (.listVal ps) =>
      match joinSourcePieces ps with
      | none => .error (str "TypeError")
      | some s => .ok (ctype, s)

/-- One iteration of the cell loop: read the fields (possibly raising), then
dispatch on the cell type exactly as `cellPart` does. -/
def cellPartJson (c : NotebookCellJson) : Except Str (Option Str) :=
  match readCellFields c with
  | .error e => .error e
  | .ok (some t, src) => .ok (cellPart ⟨t, src⟩)
  | .ok (none, _) => .ok none

/-- A parsed cell on which the unguarded loop body does not raise. -/
def cellWellFormed : NotebookCellJson → Bool
  | .nonDict => false
  | .obj _ none => true
  | .obj _ (some (.strVal _)) => true
  | .obj _ (some (.otherVal _)) => true
  | .obj _ (some (.listVal ps)) => ps.all Option.isSome

/-- The `parts` accumulation of the cell loop, propagating the first raised
exception. -/
def collectParts : List NotebookCellJson → Except Str (List Str)
  | [] => .ok []
  | c :: cs =>
    match cellPartJson c with
    | .error e => .error e
    | .ok none => collectParts cs
    | .ok (some p) =>
      match collectParts cs with
      | .error e => .error e
      | .ok ps => .ok (p :: ps)

/-- `_extract_text_ipynb(raw_bytes, max_chars=120000)`: `none` models a JSON
parse failure of both `json.loads` attempts (which returns `''`); a parsed
non-dict top level (or absent `cells` key) is `some []`.  The cell loop may
raise (`Except.error`), since it is outside the `try`; on success the cell
parts are joined with blank lines, stripped, and truncated. -/
def extract_text_ipynb (parsed : Option (List NotebookCellJson))
    (max_chars : Nat := 120000) : Except Str Str :=
  match parsed with
  | none => .ok []
  | some cells =>
    match collectParts cells with
    | .error e => .error e
    | .ok parts =>
      .ok ((pyStrip (pyJoinWith (str "\n\n") parts)).take max_chars)

/-- Total character count of accumulated page texts. -/
def sumLens (xs : List Str) : Nat := (xs.map List.length).sum

/-- The per-page loop of `_extract_text_pdf`: `none` models a page whose
`extract_text()` raised (the `except: continue` branch — note it skips the
budget check); a returned `None` is equivalent to `some []` via `or ''`.
`out` accumulates non-empty stripped page texts in reverse; the loop stops
once the accumulated length exceeds the budget. -/
def pdfLoop (max_chars : Nat) : List (Option Str) → List Str → List Str
  | [], out => out.reverse
  | p :: ps, out =>
    match p with
    | none => pdfLoop max_chars ps out
    | some t0 =>
      let t := pyStrip t0
      let out' := if t ≠ [] then t :: out else out
      if sumLens out' > max_chars then out'.reverse else pdfLoop max_chars ps out'

/-- `_extract_text_pdf(raw_bytes, max_chars=160000)`: `libAvailable = false`
models a failing `from PyPDF2 import PdfReader`; `parsed = none` a raising
`PdfReader(...)`/page iteration (the outer `except`); both return `''`. -/
def extract_text_pdf (libAvailable : Bool) (parsed : Option (List (Option Str)))
    (max_chars : Nat := 160000) : Str :=
  if libAvailable then
    match parsed with
    | none => []
    | some pages =>
      (pyStrip (pyJoinWith (str "\n\n") (pdfLoop max_chars pages []))).take max_chars
  else []

theorem take_length_le (l : Str) (n : Nat) : (l.take n).length ≤ n := by
  rw [List.length_take]
  exact Nat.min_le_left _ _

theorem joinSourcePieces_isSome (ps : List (Option Str)) :
    (joinSourcePieces ps).isSome = ps.all Option.isSome := by
  induction ps with
  | nil => rfl
  | cons p rest ih =>
    cases p with
    | none => rfl
    | some s =>
      simp only [joinSourcePieces, List.all_cons, Option.isSome_some,
        Bool.true_and]
      rw [← ih]
      cases joinSourcePieces rest <;> rfl

theorem cellPartJson_isOk (c : NotebookCellJson) :
    (cellPartJson c).isOk = cellWellFormed c := by
  cases c with
  | nonDict => rfl
  | obj ctype srcv =>
    cases srcv with
    | none => cases ctype <;> rfl
    | some sv =>
      cases sv with
      | strVal s => cases ctype <;> rfl
      | otherVal r => cases ctype <;> rfl
      | listVal ps =>
        simp only [cellPartJson, readCellFields, cellWellFormed]
        rw [← joinSourcePieces_isSome]
        cases joinSourcePieces ps with
        | none => rfl
        | some s => cases ctype <;> rfl

theorem collectParts_isOk (cells : List NotebookCellJson) :
    (collectParts cells).isOk = cells.all cellWellFormed := by
  induction cells with
  | nil => rfl
  | cons c cs ih =>
    simp only [collectParts, List.all_cons]
    cases hc : cellPartJson c with
    | error e =>
      have hwf : cellWellFormed c = false := by
        rw [← cellPartJson_isOk, hc]; rfl
      rw [hwf, Bool.false_and]
      rfl
    | ok o =>
      have hwf : cellWellFormed c = true := by
        rw [← cellPartJson_isOk, hc]; rfl
      cases o with
      | none => simpa [hwf] using ih
      | some p =>
        simp only [hwf, Bool.true_and]
        rw [← ih]
        cases collectParts cs <;> rfl

/-- C6 (amended): PDF extraction is total — a missing library, an unparseable
document, and a failing page all degrade gracefully (the page is skipped
while later pages are still processed) and the result never exceeds 160000
characters.  Notebook extraction returns the empty string when the bytes are
not parseable as JSON and its successful result never exceeds 120000
characters, but it is *not* total: the cell loop raises, instead of
returning `''`, exactly when a parsed cell is malformed (a non-object cell,
or a list-valued source with a non-string element). -/
theorem claim_C6_extraction_resilience :
    (extract_text_ipynb none 120000 = .ok []) ∧
    (∀ (cells : List NotebookCellJson) (t : Str),
      extract_text_ipynb (some cells) 120000 = .ok t → t.length ≤ 120000) ∧
    (∀ cells : List NotebookCellJson,
      (extract_text_ipynb (some cells) 120000).isOk = cells.all cellWellFormed) ∧
    (extract_text_pdf true none 160000 = []) ∧
    (∀ parsed : Option (List (Option Str)),
      extract_text_pdf false parsed 160000 = []) ∧
    (∀ pages : List (Option Str),
      (extract_text_pdf true (some pages) 160000).length ≤ 160000) ∧
    (∀ pages : List (Option Str),
      extract_text_pdf true (some (none :: pages)) 160000 =
        extract_text_pdf true (some pages) 160000) ∧
    (∀ (pages : List (Option Str)) (out : List Str),
      pdfLoop 160000 (none :: pages) out = pdfLoop 160000 pages out) := by
  refine ⟨rfl, ?_, ?_, rfl, ?_, ?_, ?_, ?_⟩
  · intro cells t h
    simp only [extract_text_ipynb] at h
    cases hcp : collectParts cells with
    | error e =>
      rw [hcp] at h
      cases h
    | ok parts =>
      rw [hcp] at h
      cases h
      exact take_length_le _ _
  · intro cells
    rw [← collectParts_isOk]
    simp only [extract_text_ipynb]
    cases collectParts cells <;> rfl
  · intro parsed
    rfl
  · intro pages
    exact take_length_le _ _
  · intro pages
    rfl
  · intro pages out
    rfl

/-- Witness for C6's hypothesis-bearing conjunct at a concrete well-formed
notebook. -/
theorem claim_C6_witness : (str "hi").length ≤ 120000 :=
  claim_C6_extraction_resilience.2.1
    [NotebookCellJson.obj (some (str "markdown"))
      (some (CellSource.strVal (str "hi")))]
    (str "hi") rfl

/-- C6 counterexample: notebook extraction is not exception-free.  The bytes
`b'{"cells": [1]}'` parse as JSON, then `c.get('cell_type')` raises
`AttributeError` on the non-dict cell `1` and the exception escapes
`_extract_text_ipynb` — it does not return `''`; likewise a list-valued
source with a non-string element raises `TypeError`. -/
theorem claim_C6_counterexample :
    extract_text_ipynb (some [NotebookCellJson.nonDict]) 120000 =
      .error (str "AttributeError") ∧
    extract_text_ipynb
        (some [NotebookCellJson.obj (some (str "markdown"))
          (some (CellSource.listVal [none]))]) 120000 =
      .error (str "TypeError") :=
  ⟨rfl, rfl⟩

/-- C7 (amended): markdown cells are copied verbatim; a code line is kept
exactly when its stripped form is non-empty and begins with `import `,
`from `, `def `, `class `, or `#`; the kept lines of each code cell are
capped at 80 **per code cell** (not per notebook) and wrapped in a
```` ```python ```` fence. -/
theorem claim_C7_code_cell_filter :
    (∀ s : Str, cellPart ⟨str "markdown", s⟩ = some s) ∧
    (∀ line : Str, lineKeep line = true ↔
      (pyStrip line ≠ [] ∧
        ((str "import ").isPrefixOf (pyStrip line) = true ∨
         (str "from ").isPrefixOf (pyStrip line) = true ∨
         (str "def ").isPrefixOf (pyStrip line) = true ∨
         (str "class ").isPrefixOf (pyStrip line) = true ∨
         (str "#").isPrefixOf (pyStrip line) = true))) ∧
    (∀ src : Str, ((keptCodeLines src).take 80).length ≤ 80) ∧
    (∀ src : Str, pyStrip src ≠ [] → keptCodeLines src ≠ [] →
      cellPart ⟨str "code", src⟩ =
        some (str "```python\n" ++
          pyJoinWith (str "\n") ((keptCodeLines src).take 80) ++ str "\n```")) := by
  refine ⟨?_, ?_, ?_, ?_⟩
  · intro s
    rfl
  · intro line
    simp [lineKeep]
    tauto
  · intro src
    exact List.length_take_le _ _
  · intro src h1 h2
    have hne : ¬ (str "code" = str "markdown") := by decide
    simp [cellPart, h1, h2, hne]

/-- Witness for C7's hypothesis-bearing conjunct at a concrete code cell. -/
theorem claim_C7_witness :
    cellPart ⟨str "code", str "import os\nx = 1"⟩ =
      some (str "```python\n" ++
        pyJoinWith (str "\n")
          ((keptCodeLines (str "import os\nx = 1")).take 80) ++ str "\n```") :=
  claim_C7_code_cell_filter.2.2.2 (str "import os\nx = 1")
    (by decide) (by decide)

/-- Two code cells of 41 `import` lines each. -/
def nb82 : List NotebookCellJson :=
  [NotebookCellJson.obj (some (str "code"))
    (some (CellSource.strVal (pyJoinWith (str "\n")
      (List.replicate 41 (str "import a"))))),
   NotebookCellJson.obj (some (str "code"))
    (some (CellSource.strVal (pyJoinWith (str "\n")
      (List.replicate 41 (str "import a")))))]

set_option maxRecDepth 100000

/-- C7 counterexample: a notebook with two code cells of 41 keepable lines
each yields 82 kept code lines in the extracted text — the 80-line cap is not
applied per notebook. -/
theorem claim_C7_counterexample :
    (extract_text_ipynb (some nb82) 120000).isOk = true ∧
    (pySplitlines ((extract_text_ipynb (some nb82) 120000).toOption.getD [])).countP
      (fun l => (str "import ").isPrefixOf l) = 82 := by
  decide

/-! ## Guide topic grouping and the noise filter (`drive_guide_generate`) -/

/-- A stable insertion sort: each element is inserted after all already-placed
elements that compare `le` to it, so elements with equal keys keep their
original relative order — the semantics of Python's stable `sorted`/`sort`. -/
def insertSorted {α : Type} (le : α → α → Bool) (x : α) : List α → List α
  | [] => [x]
  | y :: ys => if le y x then y :: insertSorted le x ys else x :: y :: ys

/-- Python `sorted(l, key=...)` (the key order is baked into `le`). -/
def pySorted {α : Type} (le : α → α → Bool) (l : List α) : List α :=
  l.foldl (fun acc x => insertSorted le x acc) []

/-- Lexicographic comparison of strings by code point (Python `str` order). -/
def strLE : Str → Str → Bool
  | [], _ => true
  | _ :: _, [] => false
  | a :: as, b :: bs =>
    if a.toNat < b.toNat then true
    else if b.toNat < a.toNat then false
    else strLE as bs

/-- Digits to the number they denote. -/
def natOfDigits (ds : Str) : Nat := ds.foldl (fun n c => n * 10 + (c.toNat - 48)) 0

/-- `_module_sort_key(name)`: `(leading number, name)` when the name matches
`^\s*(\d+)\s*[-–—]`, else `(10**9, name)`. -/
def module_sort_key (name : Str) : Nat × Str :=
  let s1 := name.dropWhile pyIsSpace
  let ds := s1.takeWhile Char.isDigit
  let s2 := (s1.dropWhile Char.isDigit).dropWhile pyIsSpace
  if ds ≠ [] ∧ (s2.head? = some '-' ∨ s2.head? = some '–' ∨ s2.head? = some '—')
  then (natOfDigits ds, name)
  else (1000000000, name)

/-- Module ordering: compare `_module_sort_key` tuples. -/
def moduleLE (m1 m2 : Str) : Bool :=
  let k1 := module_sort_key m1
  let k2 := module_sort_key m2
  if k1.1 < k2.1 then true
  else if k2.1 < k1.1 then false
  else strLE k1.2 k2.2

/-- `_module_from_path(path)`: first path segment, stripped, else `Misc`. -/
def module_from_path (p : Str) : Str :=
  let p' := pyStrip p
  if p' = [] then str "Misc"
  else
    let first := pyStrip (p'.takeWhile (fun c => c ≠ '/'))
    if first = [] then str "Misc" else first

/-- The fixed noise phrase list of `_is_noise_topic`. -/
def noisePhrases : List Str :=
  [str "importing libraries", str "import libraries", str "scipy stats",
   str "loading data", str "load data", str "data preparation",
   str "data preprocessing", str "data cleaning", str "reading data",
   str "visualization", str "plotting", str "exploratory data analysis",
   str "eda", str "installing", str "setup"]

/-- Python's substring containment `needle in hay`. -/
def isSubstring (needle : Str) : Str → Bool
  | [] => needle == []
  | c :: t => needle.isPrefixOf (c :: t) || isSubstring needle t

/-- `_is_noise_topic(topic)`: true for an empty normalized key or when any
noise phrase occurs inside the normalized topic. -/
def is_noise_topic (topic : Str) : Bool :=
  let t := topic_key topic
  if t = [] then true
  else noisePhrases.any (fun n => isSubstring n t)

/-- One row of the `drive_files` query feeding guide generation:
`topics = none` models falsy `extracted_topics_json` (row skipped); a JSON
parse failure contributes `some []`. -/
structure GuideRow where
  topics : Option (List Str)
  path : Option Str
  name : Option Str

/-- One value of the per-module topic dict: the normalized key, the first
display title seen, and an occurrence count. -/
structure BucketEntry where
  key : Str
  title : Str
  count : Nat
deriving DecidableEq

/-- The per-module buckets, in insertion order (a Python dict of dicts). -/
abbrev Buckets := List (Str × List BucketEntry)

/-- `module_topics.setdefault`-style module selection for one row. -/
def rowModule (r : GuideRow) : Str :=
  if truthy r.path then module_from_path (r.path.getD [])
  else module_from_path (r.name.getD [])

/-- `bucket[k]['count'] += 1` with `bucket.setdefault`-style insertion. -/
def bucketAdd (b : List BucketEntry) (k s : Str) : List BucketEntry :=
  if b.any (fun e => e.key == k) then
    b.map (fun e => if e.key == k then { e with count := e.count + 1 } else e)
  else b ++ [⟨k, s, 1⟩]

/-- The per-topic body of the row loop: strip, drop empty or noise topics,
drop empty keys, then count the topic in the bucket. -/
def addTopic (b : List BucketEntry) (t : Str) : List BucketEntry :=
  let s := pyStrip t
  if s = [] then b
  else if is_noise_topic s then b
  else
    let k := topic_key s
    if k = [] then b
    else bucketAdd b k s

def bucketsFind (bs : Buckets) (mod : Str) : Option (List BucketEntry) :=
  (bs.find? (fun p => p.1 == mod)).map Prod.snd

/-- Replace the bucket stored under `mod`, inserting at the end if absent
(Python dict `setdefault` + in-place mutation). -/
def bucketsSet (bs : Buckets) (mod : Str) (b : List BucketEntry) : Buckets :=
  if bs.any (fun p => p.1 == mod) then
    bs.map (fun p => if p.1 == mod then (p.1, b) else p)
  else bs ++ [(mod, b)]

/-- One iteration of the row loop of `drive_guide_generate`. -/
def processRow (bs : Buckets) (r : GuideRow) : Buckets :=
  match r.topics with
  | none => bs
  | some ts =>
    let mod := rowModule r
    let b0 := (bucketsFind bs mod).getD []
    bucketsSet bs mod (ts.foldl addTopic b0)

/-- The full `module_topics` accumulation over the query rows. -/
def buildBuckets (rows : List GuideRow) : Buckets := rows.foldl processRow []

/-- `(-count, title)` item ordering of the per-module topic sort. -/
def itemLE (e1 e2 : BucketEntry) : Bool :=
  if e2.count < e1.count then true
  else if e1.count < e2.count then false
  else strLE e1.title e2.title

/-- The `module_payload` loop: modules in sorted order, each module's topics
sorted by `(-count, title)` and truncated to 60; empty modules are skipped;
the loop stops after the module that reaches `max_topics` total topics. -/
def buildPayloadAux (bs : Buckets) (max_topics : Nat) :
    List Str → Nat → List (Str × List Str)
  | [], _ => []
  | mod :: rest, total =>
    let items := pySorted itemLE ((bucketsFind bs mod).getD [])
    let titles := (items.map BucketEntry.title).take 60
    if titles = [] then buildPayloadAux bs max_topics rest total
    else
      (mod, titles) ::
        (if max_topics ≤ total + titles.length then []
         else buildPayloadAux bs max_topics rest (total + titles.length))

/-- The `(module, topic titles)` payload that guide compilation renders. -/
def drive_guide_module_payload (rows : List GuideRow) (max_topics : Nat) :
    List (Str × List Str) :=
  let buckets := buildBuckets rows
  buildPayloadAux buckets max_topics (pySorted moduleLE (buckets.map Prod.fst)) 0

theorem mem_insertSorted {α : Type} (le : α → α → Bool) (x a : α) (l : List α) :
    a ∈ insertSorted le x l ↔ a = x ∨ a ∈ l := by
  induction l with
  | nil => simp [insertSorted]
  | cons y ys ih =>
    by_cases h : le y x = true
    · simp [insertSorted, h, ih]
      tauto
    · simp only [Bool.not_eq_true] at h
      simp [insertSorted, h]

theorem mem_pySorted {α : Type} (le : α → α → Bool) (a : α) (l : List α) :
    a ∈ pySorted le l ↔ a ∈ l := by
  have H : ∀ (l acc : List α), a ∈ l.foldl (fun acc x => insertSorted le x acc) acc ↔
      a ∈ acc ∨ a ∈ l := by
    intro l
    induction l with
    | nil => simp
    | cons x xs ih =>
      intro acc
      rw [List.foldl_cons, ih, mem_insertSorted]
      simp only [List.mem_cons]
      tauto
  rw [pySorted, H]
  simp

/-- The bucket-entry invariant: every stored title is a stripped, non-noise
topic string. -/
def entryOK (e : BucketEntry) : Prop := is_noise_topic e.title = false

theorem bucketAdd_OK (b : List BucketEntry) (k s : Str)
    (hs : is_noise_topic s = false) (hb : ∀ e ∈ b, entryOK e) :
    ∀ e ∈ bucketAdd b k s, entryOK e := by
  intro e he
  unfold bucketAdd at he
  split at he
  · rcases List.mem_map.1 he with ⟨e0, he0, rfl⟩
    by_cases hk : (e0.key == k) = true
    · simpa [entryOK, hk] using hb e0 he0
    · simp only [Bool.not_eq_true] at hk
      simpa [entryOK, hk] using hb e0 he0
  · rcases List.mem_append.1 he with h | h
    · exact hb e h
    · simp only [List.mem_singleton] at h
      subst h
      exact hs

theorem addTopic_OK (b : List BucketEntry) (t : Str)
    (hb : ∀ e ∈ b, entryOK e) : ∀ e ∈ addTopic b t, entryOK e := by
  intro e he
  simp only [addTopic] at he
  split at he
  · exact hb e he
  · split at he
    · exact hb e he
    · split at he
      · exact hb e he
      · rename_i h1 hns h2
        simp only [Bool.not_eq_true] at hns
        exact bucketAdd_OK b _ _ hns hb e he

theorem foldl_addTopic_OK (ts : List Str) (b : List BucketEntry)
    (hb : ∀ e ∈ b, entryOK e) : ∀ e ∈ ts.foldl addTopic b, entryOK e := by
  induction ts generalizing b with
  | nil => exact hb
  | cons t ts ih =>
    rw [List.foldl_cons]
    exact ih _ (addTopic_OK b t hb)

/-- The buckets invariant. -/
def bucketsOK (bs : Buckets) : Prop :=
  ∀ p ∈ bs, ∀ e ∈ p.2, entryOK e

theorem bucketsFind_OK {bs : Buckets} (h : bucketsOK bs) (mod : Str) :
    ∀ e ∈ (bucketsFind bs mod).getD [], entryOK e := by
  unfold bucketsFind
  cases hf : bs.find? (fun p => p.1 == mod) with
  | none => simp
  | some p =>
    have hp : p ∈ bs := List.mem_of_find?_eq_some hf
    simpa using h p hp

theorem bucketsSet_OK {bs : Buckets} (h : bucketsOK bs) (mod : Str)
    (b : List BucketEntry) (hb : ∀ e ∈ b, entryOK e) :
    bucketsOK (bucketsSet bs mod b) := by
  intro p hp
  unfold bucketsSet at hp
  split at hp
  · rcases List.mem_map.1 hp with ⟨p0, hp0, rfl⟩
    by_cases hk : (p0.1 == mod) = true
    · simpa [hk] using hb
    · simp only [Bool.not_eq_true] at hk
      simpa [hk] using h p0 hp0
  · rcases List.mem_append.1 hp with h' | h'
    · exact h p h'
    · simp only [List.mem_singleton] at h'
      subst h'
      simpa using hb

theorem buildBuckets_OK (rows : List GuideRow) : bucketsOK (buildBuckets rows) := by
  have H : ∀ (rows : List GuideRow) (bs : Buckets), bucketsOK bs →
      bucketsOK (rows.foldl processRow bs) := by
    intro rows
    induction rows with
    | nil => intro bs h; exact h
    | cons r rs ih =>
      intro bs h
      rw [List.foldl_cons]
      apply ih
      unfold processRow
      cases r.topics with
      | none => exact h
      | some ts =>
        exact bucketsSet_OK h _ _
          (foldl_addTopic_OK ts _ (bucketsFind_OK h (rowModule r)))
  exact H rows [] (by intro p hp; cases hp)

theorem buildPayloadAux_shape (bs : Buckets) (max_topics : Nat) :
    ∀ (mods : List Str) (total : Nat) (mod : Str) (titles : List Str),
      (mod, titles) ∈ buildPayloadAux bs max_topics mods total →
      titles = ((pySorted itemLE ((bucketsFind bs mod).getD [])).map
        BucketEntry.title).take 60 := by
  intro mods
  induction mods with
  | nil => intro total mod titles h; cases h
  | cons m rest ih =>
    intro total mod titles h
    simp only [buildPayloadAux] at h
    split at h
    · exact ih _ _ _ h
    · rcases List.mem_cons.1 h with h' | h'
      · rw [Prod.mk.injEq] at h'
        rcases h' with ⟨rfl, rfl⟩
        rfl
      · split at h'
        · cases h'
        · exact ih _ _ _ h'

/-- C8: no title in any module's topic list of the compiled guide payload is
a noise topic; in particular `"Importing Libraries"` never appears. -/
theorem claim_C8_noise_filtering :
    ∀ (rows : List GuideRow) (max_topics : Nat) (mod : Str)
      (titles : List Str) (t : Str),
      (mod, titles) ∈ drive_guide_module_payload rows max_topics →
      t ∈ titles →
      is_noise_topic t = false ∧ t ≠ str "Importing Libraries" := by
  intro rows max_topics mod titles t hmem ht
  unfold drive_guide_module_payload at hmem
  have hshape := buildPayloadAux_shape _ _ _ _ _ _ hmem
  subst hshape
  have ht' := List.mem_of_mem_take ht
  rcases List.mem_map.1 ht' with ⟨e, he, heq⟩
  subst heq
  have he' : e ∈ (bucketsFind (buildBuckets rows) mod).getD [] :=
    (mem_pySorted itemLE e _).1 he
  have hok : entryOK e := bucketsFind_OK (buildBuckets_OK rows) mod e he'
  refine ⟨hok, ?_⟩
  intro hcontra
  unfold entryOK at hok
  rw [hcontra] at hok
  exact absurd hok (by decide)

/-- Witness for C8 at a concrete row set: the payload contains module
`1 - Intro` with title `Gradient Descent`, which is not noise (while the
extracted `Importing Libraries` topic was dropped). -/
theorem claim_C8_witness :
    (str "1 - Intro",
        [str "Gradient Descent"]) ∈
      drive_guide_module_payload
        [⟨some [str "Gradient Descent", str "Importing Libraries"],
          some (str "1 - Intro/notes.pdf"), none⟩] 160 ∧
    is_noise_topic (str "Gradient Descent") = false ∧
    str "Gradient Descent" ≠ str "Importing Libraries" := by
  refine ⟨by decide, ?_⟩
  exact claim_C8_noise_filtering
    [⟨some [str "Gradient Descent", str "Importing Libraries"],
      some (str "1 - Intro/notes.pdf"), none⟩] 160
    (str "1 - Intro") [str "Gradient Descent"] (str "Gradient Descent")
    (by decide) (by decide)

/-! ## `_normalize_math_delimiters_backend` -/

/-- Python `str.replace` specialized to a three-character pattern: leftmost
occurrences are replaced, scanning resumes after the replacement. -/
def pyReplace3 (p1 p2 p3 : Char) (rep : Str) : Str → Str
  | c :: d :: e :: rest =>
    if c = p1 ∧ d = p2 ∧ e = p3 then rep ++ pyReplace3 p1 p2 p3 rep rest
    else c :: pyReplace3 p1 p2 p3 rep (d :: e :: rest)
  | s => s

/-- The double-escape collapse: `\\(` → `\(`, `\\)` → `\)`, `\\[` → `\[`,
`\\]` → `\]`, applied in the source's order. -/
def collapseEscapes (s : Str) : Str :=
  pyReplace3 '\\' '\\' ']' (str "\\]")
    (pyReplace3 '\\' '\\' '[' (str "\\[")
      (pyReplace3 '\\' '\\' ')' (str "\\)")
        (pyReplace3 '\\' '\\' '(' (str "\\(") s)))

/-- `re.search(r'\\[A-Za-z]+', inner)`: a backslash followed by a letter. -/
def hasLatexCmd : Str → Bool
  | [] => false
  | ['\\'] => false
  | '\\' :: c :: rest => if c.isAlpha then true else hasLatexCmd (c :: rest)
  | _ :: rest => hasLatexCmd rest

/-- `re.search(r'[_^]', inner)`. -/
def hasSubSup (s : Str) : Bool := s.any (fun c => c == '_' || c == '^')

/-- The `repl` function applied to one matched span `( content )`: rewrite to
`\( inner \)` only for a stripped non-empty content containing a LaTeX
command or `^`/`_` and no `\left`/`\right`; otherwise return the match
unchanged. -/
def spanRewrite (content : Str) : Str :=
  let inner := pyStrip content
  if inner = [] then '(' :: content ++ [')']
  else if isSubstring (str "\\left") inner || isSubstring (str "\\right") inner then
    '(' :: content ++ [')']
  else if hasLatexCmd inner || hasSubSup inner then
    str "\\( " ++ inner ++ str " \\)"
  else '(' :: content ++ [')']

/-- The scan of `re.sub(r'\(\s*([^\)]*?)\s*\)', repl, s)`: a match runs from a
`(` to the first following `)` (the lazy group cannot contain `)`), scanning
resumes after the match; text outside matches is copied.  The state holds the
reversed buffered content after an open `(`; an unmatched `(` is emitted
verbatim at the end. -/
def rewriteAux : Str → Option Str → Str
  | [], none => []
  | [], some buf => '(' :: buf.reverse
  | c :: cs, none =>
    if c = '(' then rewriteAux cs (some []) else c :: rewriteAux cs none
  | c :: cs, some buf =>
    if c = ')' then spanRewrite buf.reverse ++ rewriteAux cs none
    else rewriteAux cs (some (c :: buf))

/-- `_normalize_math_delimiters_backend(markdown)`. -/
def normalize_math_delimiters (markdown : Str) : Str :=
  if markdown = [] then markdown
  else rewriteAux (collapseEscapes markdown) none

theorem rewriteAux_span (content : Str) (hc : ')' ∉ content) :
    ∀ (buf rest : Str),
      rewriteAux (content ++ ')' :: rest) (some buf) =
        spanRewrite (buf.reverse ++ content) ++ rewriteAux rest none := by
  induction content with
  | nil =>
    intro buf rest
    simp [rewriteAux]
  | cons d ds ih =>
    intro buf rest
    have hd : ¬ d = ')' := fun h => hc (h ▸ List.mem_cons_self d ds)
    have hds : ')' ∉ ds := fun h => hc (List.mem_cons_of_mem d h)
    simp only [List.cons_append, rewriteAux, if_neg hd, List.append_eq]
    rw [ih hds (d :: buf) rest]
    simp

/-- C9 (amended): the post-processing first collapses double-escaped
delimiters; after that collapse, a parenthesized span is rewritten to
`\( ... \)` exactly when its stripped content is non-empty, free of
`\left`/`\right`, and contains a LaTeX command or `^`/`_`; every other span
and all text outside parentheses is copied unchanged by the span scan. -/
theorem claim_C9_math_delimiters :
    (∀ s : Str, s ≠ [] →
      normalize_math_delimiters s = rewriteAux (collapseEscapes s) none) ∧
    (∀ (c : Char) (cs : Str), c ≠ '(' →
      rewriteAux (c :: cs) none = c :: rewriteAux cs none) ∧
    (∀ content rest : Str, ')' ∉ content →
      pyStrip content ≠ [] →
      isSubstring (str "\\left") (pyStrip content) = false →
      isSubstring (str "\\right") (pyStrip content) = false →
      (hasLatexCmd (pyStrip content) = true ∨ hasSubSup (pyStrip content) = true) →
      rewriteAux ('(' :: content ++ ')' :: rest) none =
        str "\\( " ++ pyStrip content ++ str " \\)" ++ rewriteAux rest none) ∧
    (∀ content rest : Str, ')' ∉ content →
      (pyStrip content = [] ∨
        isSubstring (str "\\left") (pyStrip content) = true ∨
        isSubstring (str "\\right") (pyStrip content) = true ∨
        (hasLatexCmd (pyStrip content) = false ∧ hasSubSup (pyStrip content) = false)) →
      rewriteAux ('(' :: content ++ ')' :: rest) none =
        '(' :: content ++ ')' :: rewriteAux rest none) := by
  refine ⟨?_, ?_, ?_, ?_⟩
  · intro s hs
    simp [normalize_math_delimiters, hs]
  · intro c cs hc
    simp [rewriteAux, hc]
  · intro content rest hc hne hl hr hq
    have : rewriteAux ('(' :: content ++ ')' :: rest) none =
        rewriteAux (content ++ ')' :: rest) (some []) := by
      simp [rewriteAux]
    rw [this, rewriteAux_span content hc [] rest]
    simp only [List.reverse_nil, List.nil_append]
    unfold spanRewrite
    rw [if_neg hne, if_neg (by simp [hl, hr])]
    rw [if_pos (by rcases hq with h | h <;> simp [h])]
  · intro content rest hc hq
    have : rewriteAux ('(' :: content ++ ')' :: rest) none =
        rewriteAux (content ++ ')' :: rest) (some []) := by
      simp [rewriteAux]
    rw [this, rewriteAux_span content hc [] rest]
    simp only [List.reverse_nil, List.nil_append]
    unfold spanRewrite
    rcases hq with h | h | h | ⟨h1, h2⟩
    · rw [if_pos h]
      simp
    · rw [if_neg (fun hemp => by rw [hemp] at h; exact absurd h (by decide)),
        if_pos (by simp [h])]
      simp
    · rw [if_neg (fun hemp => by rw [hemp] at h; exact absurd h (by decide)),
        if_pos (by simp [h])]
      simp
    · by_cases hemp : pyStrip content = []
      · rw [if_pos hemp]
        simp
      · rw [if_neg hemp]
        split
        · simp
        · rw [if_neg (by simp [h1, h2])]
          simp

/-- Witness for C9's hypothesis-bearing conjuncts at concrete spans. -/
theorem claim_C9_witness :
    (normalize_math_delimiters (str "(x^2)") =
      rewriteAux (collapseEscapes (str "(x^2)")) none) ∧
    (rewriteAux (str "a(") none = 'a' :: rewriteAux (str "(") none) ∧
    (rewriteAux ('(' :: str " x^2 " ++ ')' :: str "!") none =
      str "\\( " ++ pyStrip (str " x^2 ") ++ str " \\)" ++
        rewriteAux (str "!") none) ∧
    (rewriteAux ('(' :: str "ab" ++ ')' :: str "!") none =
      '(' :: str "ab" ++ ')' :: rewriteAux (str "!") none) := by
  refine ⟨?_, ?_, ?_, ?_⟩
  · exact claim_C9_math_delimiters.1 (str "(x^2)") (by decide)
  · exact claim_C9_math_delimiters.2.1 'a' (str "(") (by decide)
  · exact claim_C9_math_delimiters.2.2.1 (str " x^2 ") (str "!")
      (by decide) (by decide) (by decide) (by decide) (by decide)
  · exact claim_C9_math_delimiters.2.2.2 (str "ab") (str "!")
      (by decide) (by decide)

/-- C9 counterexample: on input `x \\[ y` — which contains no parentheses at
all — the normalization changes the text (the double-escape collapse), so the
claim that all text outside parentheses is left unchanged fails. -/
theorem claim_C9_counterexample :
    normalize_math_delimiters (str "x \\\\[ y") ≠ str "x \\\\[ y" ∧
    (str "x \\\\[ y").all (fun c => !(c == '(') && !(c == ')')) = true := by
  decide

/-! ## `drive_extract_topics`'s per-call file limit -/

/-- `limit = int(data.get('limit') or 10); if limit < 1 or limit > 100:
limit = 10`.  `none` models an absent key (or JSON `null`); `0` is falsy. -/
def effective_limit (requested : Option Int) : Int :=
  let l : Int :=
    match requested with
    | none => 10
    | some v => if v = 0 then 10 else v
  if l < 1 ∨ l > 100 then 10 else l

/-- One row of the `drive_files` query in `drive_extract_topics`, together
with whether the Drive download for it raises (the external call). -/
structure DriveFileRow where
  file_id : Option Str
  name : Option Str
  mime_type : Option Str
  extracted_at : Option Str
  extracted_topics_json : Option Str
  text_excerpt : Option Str
  download_raises : Bool

/-- `mime == 'application/pdf' or name.lower().endswith('.pdf')`. -/
def isPdfRow (r : DriveFileRow) : Bool :=
  r.mime_type == some (str "application/pdf") ||
    (str ".pdf").isSuffixOf (pyLower (r.name.getD []))

/-- `name.lower().endswith('.ipynb') or mime in ('application/x-ipynb+json',)`. -/
def isIpynbRow (r : DriveFileRow) : Bool :=
  (str ".ipynb").isSuffixOf (pyLower (r.name.getD [])) ||
    r.mime_type == some (str "application/x-ipynb+json")

/-- Whether one loop iteration appends an entry to `processed`: already
processed rows (unless forced) and rows with no file id are skipped; a raising
download appends an error entry; a recognized file type appends a result
entry; any other type is skipped before download results matter. -/
def rowAppends (force : Bool) (r : DriveFileRow) : Bool :=
  if !force && truthy r.extracted_at && truthy r.text_excerpt then false
  else if !(truthy r.file_id) then false
  else if r.download_raises then true
  else if isIpynbRow r || isPdfRow r then true
  else false

/-- The `for f in rows` loop of `drive_extract_topics`, counting `processed`:
the loop breaks as soon as `len(processed) >= limit`. -/
def drive_extract_processed_count (limit : Int) (force : Bool) :
    List DriveFileRow → Int → Int
  | [], n => n
  | r :: rs, n =>
    if limit ≤ n then n
    else if rowAppends force r then
      drive_extract_processed_count limit force rs (n + 1)
    else drive_extract_processed_count limit force rs n

theorem effective_limit_pos (req : Option Int) : 1 ≤ effective_limit req := by
  cases req with
  | none => decide
  | some v =>
    simp only [effective_limit]
    by_cases h0 : v = 0
    · simp [h0]
    · rw [if_neg h0]
      split
      · omega
      · rename_i h
        push_neg at h
        exact h.1

theorem drive_extract_count_le (limit : Int) (force : Bool) :
    ∀ (rows : List DriveFileRow) (n : Int), n ≤ limit →
      drive_extract_processed_count limit force rows n ≤ limit := by
  intro rows
  induction rows with
  | nil => intro n h; exact h
  | cons r rs ih =>
    intro n h
    unfold drive_extract_processed_count
    split
    · exact h
    · rename_i hlt
      push_neg at hlt
      split
      · exact ih (n + 1) (by omega)
      · exact ih n h

/-- C10: a requested per-call limit below 1 or above 100 is replaced by the
default 10 (not clamped), an absent or zero limit also yields 10, a request of
200 therefore processes at most 10 files (not 100), and in general the loop
never processes more files than the effective limit. -/
theorem claim_C10_extract_limit :
    (effective_limit none = 10 ∧ effective_limit (some 0) = 10) ∧
    (∀ v : Int, v < 1 ∨ v > 100 → effective_limit (some v) = 10) ∧
    (effective_limit (some 200) = 10) ∧
    (∀ (force : Bool) (rows : List DriveFileRow),
      drive_extract_processed_count (effective_limit (some 200)) force rows 0 ≤ 10) ∧
    (∀ (req : Option Int) (force : Bool) (rows : List DriveFileRow),
      drive_extract_processed_count (effective_limit req) force rows 0 ≤
        effective_limit req) := by
  refine ⟨⟨rfl, rfl⟩, ?_, rfl, ?_, ?_⟩
  · intro v hv
    simp only [effective_limit]
    by_cases h0 : v = 0
    · simp [h0]
    · rw [if_neg h0, if_pos (by omega)]
  · intro force rows
    exact drive_extract_count_le 10 force rows 0 (by omega)
  · intro req force rows
    exact drive_extract_count_le _ force rows 0
      (le_trans (by omega) (effective_limit_pos req))

/-- Witness for C10's hypothesis-bearing conjunct at the requested limit 200. -/
theorem claim_C10_witness : effective_limit (some 200) = 10 :=
  claim_C10_extract_limit.2.1 200 (by decide)

end StudyGuide
